import Mathlib

/-!
Shallow embedding of the active-speaker auto-switch engine of the
`atem-mcp-server` repository (file `src/services/atem-connection.ts`).

Loudness values are JavaScript numbers; we embed them as rationals (`ℚ`),
timestamps (milliseconds from `Date.now()`) as integers (`ℤ`), and the
`audioLevels` JavaScript `Map` as an association list in insertion order
(a JS `Map` iterates in insertion order, and `Map.set` on an existing key
keeps its position).  Fire-and-forget device commands issued by a poll
tick are collected in an ordered list.
-/

namespace AtemAutoSwitch

/-- Constant `SAMPLE_WINDOW_SIZE` (atem-connection.ts line 18): sliding-window bound. -/
def SAMPLE_WINDOW_SIZE : ℕ := 12

/-- Constant `LEVEL_WINDOW_MS` (line 21): age in ms beyond which level data is stale. -/
def LEVEL_WINDOW_MS : ℤ := 5000

/-- Constant `SILENCE_THRESHOLD` (line 29): minimum level to consider an input active. -/
def SILENCE_THRESHOLD : ℚ := -5000

/-- Constant `EMA_ALPHA` (line 49): smoothing factor 0.3. -/
def EMA_ALPHA : ℚ := 3 / 10

/-- Structure `InputAudioLevel` (lines 31-40): per-input tracking record. -/
structure InputAudioLevel where
  samples : List ℚ
  smoothedLevel : ℚ
  recentPeak : ℚ
  lastUpdate : ℤ
deriving DecidableEq

/-- The `audioLevels` map (line 43), as an association list in insertion order. -/
abbrev AudioLevels := List (ℕ × InputAudioLevel)

/-- Lookup `audioLevels.get(input)`: first binding of the key, if any. -/
def lookupLevel (levels : AudioLevels) (inputIndex : ℕ) : Option InputAudioLevel :=
  match levels with
  | [] => none
  | (i, d) :: rest => if i = inputIndex then some d else lookupLevel rest inputIndex

/-- Update `audioLevels.set(input, d)` when the key exists: replace in place
(a JS `Map.set` keeps the key's insertion position). -/
def setLevel (levels : AudioLevels) (inputIndex : ℕ) (d : InputAudioLevel) : AudioLevels :=
  match levels with
  | [] => [(inputIndex, d)]
  | (i, d0) :: rest =>
    if i = inputIndex then (i, d) :: rest else (i, d0) :: setLevel rest inputIndex d

/-- The `levelChanged` handler body (lines 58-84): push the peak into the
sliding window (dropping the oldest entry past `SAMPLE_WINDOW_SIZE`), update
the EMA, overwrite the instantaneous peak and the timestamp; on first sample
for the input, create the record seeded to that sample. -/
def recordSample (levels : AudioLevels) (inputIndex : ℕ) (peak : ℚ) (now : ℤ) : AudioLevels :=
  match lookupLevel levels inputIndex with
  | some existing =>
    let pushed := existing.samples ++ [peak]
    let windowed := if SAMPLE_WINDOW_SIZE < pushed.length then pushed.tail else pushed
    setLevel levels inputIndex
      { samples := windowed
        smoothedLevel := EMA_ALPHA * peak + (1 - EMA_ALPHA) * existing.smoothedLevel
        recentPeak := peak
        lastUpdate := now }
  | none =>
    levels ++ [(inputIndex,
      { samples := [peak], smoothedLevel := peak, recentPeak := peak, lastUpdate := now })]

/-- Deliver a sequence of `(input, peak, timestamp)` samples in order. -/
def deliverSamples (levels : AudioLevels) : List (ℕ × ℚ × ℤ) → AudioLevels
  | [] => levels
  | (i, peak, t) :: rest => deliverSamples (recordSample levels i peak t) rest

/-- The iterated EMA recurrence of the specification: seeded to the first
sample, then `smoothed = EMA_ALPHA * sample + (1 - EMA_ALPHA) * smoothed`
for each later sample in order; `none` when no sample has arrived. -/
def emaIter (samples : List ℚ) : Option ℚ :=
  match samples with
  | [] => none
  | s :: rest => some (rest.foldl (fun acc x => EMA_ALPHA * x + (1 - EMA_ALPHA) * acc) s)

/-- Function `getInstantaneousPeak` (lines 189-193): `-10000` when the record is
absent or stale, otherwise the stored `recentPeak`.  The source reads
`Date.now()`; here the clock is the explicit `now` argument. -/
def getInstantaneousPeak (levels : AudioLevels) (now : ℤ) (inputIndex : ℕ) : ℚ :=
  match lookupLevel levels inputIndex with
  | none => -10000
  | some d => if LEVEL_WINDOW_MS < now - d.lastUpdate then -10000 else d.recentPeak

/-- Function `getSmoothedLevel` (lines 199-203): `-10000` when the record is absent
or stale, otherwise the stored `smoothedLevel`. -/
def getSmoothedLevel (levels : AudioLevels) (now : ℤ) (inputIndex : ℕ) : ℚ :=
  match lookupLevel levels inputIndex with
  | none => -10000
  | some d => if LEVEL_WINDOW_MS < now - d.lastUpdate then -10000 else d.smoothedLevel

/-- The candidate filter of `getActiveInputsByAudioLevel` (line 116):
`candidateInputs && !candidateInputs.includes(input)`. -/
def notInCandidates (candidateInputs : Option (List ℕ)) (inputIndex : ℕ) : Bool :=
  match candidateInputs with
  | none => false
  | some cs => !(cs.contains inputIndex)

/-- Stable insert for descending order: the new element goes after every
element strictly louder than it and before the first one not louder, which
is exactly where a stable sort keyed on level leaves an element that occurs
earlier in the input than every equal-level element already placed. -/
def insertDesc (x : ℕ × ℚ) : List (ℕ × ℚ) → List (ℕ × ℚ)
  | [] => [x]
  | y :: ys => if x.2 < y.2 then y :: insertDesc x ys else x :: y :: ys

/-- Stable descending sort by level, modelling the ES2019-stable
`results.sort((a, b) => b.level - a.level)` of line 123. -/
def sortDesc : List (ℕ × ℚ) → List (ℕ × ℚ)
  | [] => []
  | x :: xs => insertDesc x (sortDesc xs)

/-- The pre-sort filtering pass of `getActiveInputsByAudioLevel`
(lines 112-120), walking the map in insertion order: skip stale entries,
entries outside the candidate list, and (unless `includeAll`) entries at or
below the silence threshold. -/
def activeResults (levels : AudioLevels) (now : ℤ)
    (candidateInputs : Option (List ℕ)) (includeAll : Bool) : List (ℕ × ℚ) :=
  levels.filterMap (fun e =>
    if LEVEL_WINDOW_MS < now - e.2.lastUpdate then none
    else if notInCandidates candidateInputs e.1 then none
    else if includeAll = false ∧ e.2.smoothedLevel ≤ SILENCE_THRESHOLD then none
    else some (e.1, e.2.smoothedLevel))

/-- Function `getActiveInputsByAudioLevel` (lines 105-125): filter then stable sort
descending by smoothed level. -/
def getActiveInputsByAudioLevel (levels : AudioLevels) (now : ℤ)
    (candidateInputs : Option (List ℕ)) (includeAll : Bool) : List (ℕ × ℚ) :=
  sortDesc (activeResults levels now candidateInputs includeAll)

/-- The `mode` field (line 176). -/
inductive SwitchMode
  | program
  | ssrc_box
  | host_ssrc
deriving DecidableEq

/-- The `transition` field (line 168): `cut` or `auto`. -/
inductive TransitionKind
  | cut
  | auto
deriving DecidableEq

/-- Structure `AutoSwitchState` (lines 150-181) together with the closure-local
`pendingSpeaker` / `pendingSince` of `startAutoSwitch` (lines 251-252).
The `setInterval` handle is a real-world resource with no data content and
is not represented. -/
structure AutoSwitchState where
  candidates : List ℕ
  hostInput : ℕ
  currentSpeaker : Option ℕ
  holdMs : ℤ
  intervalMs : ℤ
  cooldownMs : ℤ
  me : ℕ
  transition : TransitionKind
  switchCount : ℕ
  startedAt : ℤ
  lastSwitchAt : ℤ
  mode : SwitchMode
  ssrcBox : ℕ
  ssrcId : ℕ
  pendingSpeaker : Option ℕ
  pendingSince : ℤ
deriving DecidableEq

/-- Device commands issued (fire-and-forget) by the poll tick, in dispatch
order. -/
inductive AtemCommand
  | changeProgramInput (inputIndex : ℕ) (me : ℕ)
  | changePreviewInput (inputIndex : ℕ) (me : ℕ)
  | autoTransition (me : ℕ)
  | setSuperSourceBoxSource (source : ℕ) (box : ℕ) (ssrcId : ℕ)
deriving DecidableEq

/-- The loudest-candidate scan (lines 281-290): fold over the candidate list
with a strict comparison against an accumulator seeded at
`SILENCE_THRESHOLD`, so the result is `none` unless some candidate's
instantaneous peak strictly exceeds the threshold, and ties keep the earlier
candidate. -/
def findLoudest (levels : AudioLevels) (now : ℤ) (candidates : List ℕ) : Option ℕ × ℚ :=
  candidates.foldl
    (fun acc c =>
      let peak := getInstantaneousPeak levels now c
      if acc.2 < peak then (some c, peak) else acc)
    (none, SILENCE_THRESHOLD)

/-- The stickiness check (lines 308-318): with a confirmed current speaker
whose smoothed level is still above the silence threshold, a challenger is
blocked unless its instantaneous peak beats that smoothed level by at least
200 (hundredths of a dB). -/
def stickinessBlocks (levels : AudioLevels) (now : ℤ)
    (currentSpeaker : Option ℕ) (loudestPeak : ℚ) : Bool :=
  match currentSpeaker with
  | none => false
  | some cur =>
    let currentSmoothed := getSmoothedLevel levels now cur
    decide (SILENCE_THRESHOLD < currentSmoothed) &&
      decide (loudestPeak - currentSmoothed < 200)

/-- The commands issued on a confirmed switch (lines 337-371), per mode. -/
def switchCommands (st : AutoSwitchState) (loudestInput : ℕ) : List AtemCommand :=
  match st.mode with
  | .host_ssrc =>
    if loudestInput = st.hostInput then
      [.changeProgramInput loudestInput st.me]
    else
      [.setSuperSourceBoxSource loudestInput st.ssrcBox st.ssrcId,
       .changeProgramInput 6000 st.me]
  | .ssrc_box =>
    [.setSuperSourceBoxSource loudestInput st.ssrcBox st.ssrcId]
  | .program =>
    match st.transition with
    | .auto => [.changePreviewInput loudestInput st.me, .autoTransition st.me]
    | .cut => [.changeProgramInput loudestInput st.me]

/-- One poll tick (the `setInterval` body, lines 272-373).  `connected`
stands for `atemInstance && isConnected` (line 273).  Returns the state after
the tick and the device commands dispatched, in order. -/
def autoSwitchTick (connected : Bool) (levels : AudioLevels)
    (st : AutoSwitchState) (now : ℤ) : AutoSwitchState × List AtemCommand :=
  if connected = false then (st, [])
  else if 0 < st.lastSwitchAt ∧ now - st.lastSwitchAt < st.cooldownMs then (st, [])
  else
    match findLoudest levels now st.candidates with
    | (none, _) => ({ st with pendingSpeaker := none }, [])
    | (some loudestInput, loudestPeak) =>
      if st.currentSpeaker = some loudestInput then
        ({ st with pendingSpeaker := none }, [])
      else if stickinessBlocks levels now st.currentSpeaker loudestPeak then
        ({ st with pendingSpeaker := none }, [])
      else if st.pendingSpeaker ≠ some loudestInput then
        ({ st with pendingSpeaker := some loudestInput, pendingSince := now }, [])
      else if st.holdMs ≤ now - st.pendingSince then
        ({ st with
            currentSpeaker := some loudestInput
            switchCount := st.switchCount + 1
            lastSwitchAt := now
            pendingSpeaker := none },
         switchCommands st loudestInput)
      else (st, [])

/-- Run a sequence of poll ticks, each with its own connection flag, tracker
snapshot and clock reading; collect the timestamps of the ticks that
dispatched commands (the confirmed switches). -/
def runTicks (st : AutoSwitchState) : List (Bool × AudioLevels × ℤ) → AutoSwitchState × List ℤ
  | [] => (st, [])
  | (conn, levels, t) :: rest =>
    let step := autoSwitchTick conn levels st t
    let tail := runTicks step.1 rest
    (tail.1, (if step.2 = [] then [] else [t]) ++ tail.2)

/-- The module-level mutable context of `atem-connection.ts` that the engine
touches: `atemInstance` collapsed to presence, `isConnected`,
`levelTrackingActive`, the `audioLevels` map, and the `autoSwitch` run. -/
structure EngineState where
  hasAtemInstance : Bool
  isConnected : Bool
  levelTrackingActive : Bool
  audioLevels : AudioLevels
  autoSwitch : Option AutoSwitchState
deriving DecidableEq

/-- The caller-supplied options of `startAutoSwitch` (lines 209-220); `none`
stands for an omitted field. -/
structure StartOptions where
  candidates : Option (List ℕ)
  hostInput : Option ℕ
  holdMs : Option ℤ
  intervalMs : Option ℤ
  cooldownMs : Option ℤ
  me : Option ℕ
  transition : Option TransitionKind
  mode : Option SwitchMode
  ssrcBox : Option ℕ
  ssrcId : Option ℕ
deriving DecidableEq

/-- The outcome of `startAutoSwitch`: one marker per return site.  The three
error markers stand for the strings returned at lines 222, 226 and 230; the
last marker stands for the success strings at lines 379-385. -/
inductive StartAutoSwitchResult
  | errorAlreadyRunning
  | errorNotConnected
  | errorTrackingInactive
  | started
deriving DecidableEq

/-- Function `startAutoSwitch` (lines 209-387): three guard checks that return an
error without touching anything, then defaulting of the options (lines
233-248) and installation of the fresh run state (lines 254-270, 375).  The
tick closure itself is `autoSwitchTick`. -/
def startAutoSwitch (eng : EngineState) (options : StartOptions) (now : ℤ) :
    EngineState × StartAutoSwitchResult :=
  if eng.autoSwitch.isSome then (eng, .errorAlreadyRunning)
  else if eng.hasAtemInstance = false ∨ eng.isConnected = false then
    (eng, .errorNotConnected)
  else if eng.levelTrackingActive = false then (eng, .errorTrackingInactive)
  else
    let host := options.hostInput.getD 7
    let mode := options.mode.getD .program
    let candidates := options.candidates.getD
      (if mode = .host_ssrc then [1, 2, 3, 4, 5, 6, 7, 8]
       else List.filter (fun i => i ≠ host) [1, 2, 3, 4, 5, 6, 7, 8])
    let st : AutoSwitchState :=
      { candidates := candidates
        hostInput := host
        currentSpeaker := none
        holdMs := options.holdMs.getD 1000
        intervalMs := options.intervalMs.getD 250
        cooldownMs := options.cooldownMs.getD 2000
        me := options.me.getD 0
        transition := options.transition.getD .cut
        switchCount := 0
        startedAt := now
        lastSwitchAt := 0
        mode := mode
        ssrcBox := options.ssrcBox.getD 1
        ssrcId := options.ssrcId.getD 0
        pendingSpeaker := none
        pendingSince := 0 }
    ({ eng with autoSwitch := some st }, .started)

/-- The `disconnected` handler (lines 498-503): drop the connection flags,
clear every level record, and force-stop an active run (the `clearInterval`
is the disposal of the timer resource; the run state is discarded). -/
def onDisconnected (eng : EngineState) : EngineState :=
  { eng with
      isConnected := false
      levelTrackingActive := false
      audioLevels := []
      autoSwitch := none }

/-! ### Concrete fixtures used to instantiate the theorems -/

/-- Channel 1 smoothed at -1000, channel 2 peaking at -800 (both fresh at
small clock values). -/
def twoSpeakerLevels : AudioLevels :=
  recordSample (recordSample [] 1 (-1000) 0) 2 (-800) 0

/-- A quiet channel: one sample at -6000, below the silence threshold. -/
def quietLevels : AudioLevels := recordSample [] 3 (-6000) 0

/-- One loud but old record (last update at time 0). -/
def staleLevels : AudioLevels := recordSample [] 4 (-100) 0

/-- A running state in program/cut mode with channel 1 confirmed. -/
def baseRunState : AutoSwitchState :=
  { candidates := [1, 2]
    hostInput := 7
    currentSpeaker := some 1
    holdMs := 1000
    intervalMs := 250
    cooldownMs := 2000
    me := 0
    transition := TransitionKind.cut
    switchCount := 0
    startedAt := 0
    lastSwitchAt := 0
    mode := SwitchMode.program
    ssrcBox := 1
    ssrcId := 0
    pendingSpeaker := none
    pendingSince := 0 }

/-- Like `baseRunState` but with channel 1 pending. -/
def pendingOneState : AutoSwitchState := { baseRunState with pendingSpeaker := some 1 }

/-- Like `baseRunState` but with channel 2 pending since time 0. -/
def pendingRunState : AutoSwitchState := { baseRunState with pendingSpeaker := some 2 }

/-- Like `baseRunState` but having just switched at time 500. -/
def coolingRunState : AutoSwitchState := { baseRunState with lastSwitchAt := 500 }

/-- Like `baseRunState` but with channel 2 already confirmed. -/
def sameSpeakerState : AutoSwitchState := { baseRunState with currentSpeaker := some 2 }

/-- A `host_ssrc` run with channels 1-8, host 7, channel 2 pending. -/
def hostRunState : AutoSwitchState :=
  { baseRunState with
      mode := SwitchMode.host_ssrc
      candidates := [1, 2, 3, 4, 5, 6, 7, 8]
      pendingSpeaker := some 2 }

/-- Engine connected with tracking active and no run. -/
def readyEngine : EngineState :=
  { hasAtemInstance := true
    isConnected := true
    levelTrackingActive := true
    audioLevels := []
    autoSwitch := none }

/-- Engine with a run already active. -/
def busyEngine : EngineState := { readyEngine with autoSwitch := some baseRunState }

/-- A call with every option omitted. -/
def emptyOptions : StartOptions :=
  { candidates := none, hostInput := none, holdMs := none, intervalMs := none,
    cooldownMs := none, me := none, transition := none, mode := none,
    ssrcBox := none, ssrcId := none }

/-- A call selecting `host_ssrc` mode and leaving everything else omitted. -/
def hostOptions : StartOptions := { emptyOptions with mode := some SwitchMode.host_ssrc }

/-! ### Properties of the stable descending sort -/

theorem mem_insertDesc {x y : ℕ × ℚ} {m : List (ℕ × ℚ)} :
    y ∈ insertDesc x m ↔ y = x ∨ y ∈ m := by
  induction m with
  | nil => simp [insertDesc]
  | cons z zs ih =>
    unfold insertDesc
    split
    · simp only [List.mem_cons, ih]
      tauto
    · simp only [List.mem_cons]

theorem perm_insertDesc (x : ℕ × ℚ) (m : List (ℕ × ℚ)) :
    (insertDesc x m).Perm (x :: m) := by
  induction m with
  | nil => exact List.Perm.refl _
  | cons z zs ih =>
    unfold insertDesc
    split
    · exact (ih.cons z).trans (List.Perm.swap x z zs)
    · exact List.Perm.refl _

theorem perm_sortDesc (m : List (ℕ × ℚ)) : (sortDesc m).Perm m := by
  induction m with
  | nil => exact List.Perm.refl _
  | cons x xs ih =>
    exact (perm_insertDesc x (sortDesc xs)).trans (ih.cons x)

theorem mem_sortDesc {y : ℕ × ℚ} {m : List (ℕ × ℚ)} : y ∈ sortDesc m ↔ y ∈ m :=
  (perm_sortDesc m).mem_iff

theorem sorted_insertDesc {x : ℕ × ℚ} {m : List (ℕ × ℚ)}
    (h : m.Pairwise (fun a b => b.2 ≤ a.2)) :
    (insertDesc x m).Pairwise (fun a b => b.2 ≤ a.2) := by
  induction m with
  | nil => simp [insertDesc]
  | cons z zs ih =>
    rw [List.pairwise_cons] at h
    obtain ⟨hz, hzs⟩ := h
    unfold insertDesc
    split
    · rename_i hlt
      rw [List.pairwise_cons]
      refine ⟨?_, ih hzs⟩
      intro b hb
      rcases mem_insertDesc.mp hb with hb | hb
      · exact hb ▸ le_of_lt hlt
      · exact hz b hb
    · rename_i hge
      push_neg at hge
      rw [List.pairwise_cons]
      refine ⟨?_, List.pairwise_cons.mpr ⟨hz, hzs⟩⟩
      intro b hb
      rcases List.mem_cons.mp hb with hb | hb
      · exact hb ▸ hge
      · exact le_trans (hz b hb) hge

theorem sorted_sortDesc (m : List (ℕ × ℚ)) :
    (sortDesc m).Pairwise (fun a b => b.2 ≤ a.2) := by
  induction m with
  | nil => simp [sortDesc]
  | cons x xs ih => exact sorted_insertDesc ih

theorem filter_insertDesc (x : ℕ × ℚ) (m : List (ℕ × ℚ)) (v : ℚ) :
    (insertDesc x m).filter (fun e => decide (e.2 = v)) =
      (x :: m).filter (fun e => decide (e.2 = v)) := by
  induction m with
  | nil => rfl
  | cons z zs ih =>
    unfold insertDesc
    split
    · rename_i hlt
      by_cases hx : x.2 = v
      · have hz : ¬ z.2 = v := by
          intro hzv
          exact absurd (hx ▸ hzv ▸ hlt) (lt_irrefl _)
        simpa [List.filter_cons, hx, hz] using ih
      · by_cases hz : z.2 = v <;>
          simpa [List.filter_cons, hx, hz] using ih
    · rfl

theorem filter_sortDesc (m : List (ℕ × ℚ)) (v : ℚ) :
    (sortDesc m).filter (fun e => decide (e.2 = v)) =
      m.filter (fun e => decide (e.2 = v)) := by
  induction m with
  | nil => rfl
  | cons x xs ih =>
    have h := filter_insertDesc x (sortDesc xs) v
    unfold sortDesc
    rw [h]
    by_cases hx : x.2 = v <;> simp [List.filter_cons, hx, ih]

/-! ### Case analysis of one poll tick -/

theorem switchCommands_ne_nil (st : AutoSwitchState) (l : ℕ) :
    switchCommands st l ≠ [] := by
  unfold switchCommands
  split <;> (try split) <;> simp

/-- Either a tick dispatches nothing, or it is the confirmed-switch branch:
the loudest candidate was already pending, differs from the confirmed
speaker, has held for `holdMs`, the cooldown guard passed, and the tick
installs it as the confirmed speaker and dispatches the mode's commands. -/
theorem tick_cases (conn : Bool) (lv : AudioLevels) (st : AutoSwitchState) (now : ℤ) :
    (autoSwitchTick conn lv st now).2 = [] ∨
    ∃ l p, findLoudest lv now st.candidates = (some l, p) ∧
      st.currentSpeaker ≠ some l ∧
      st.pendingSpeaker = some l ∧
      st.holdMs ≤ now - st.pendingSince ∧
      ¬(0 < st.lastSwitchAt ∧ now - st.lastSwitchAt < st.cooldownMs) ∧
      autoSwitchTick conn lv st now =
        ({ st with
            currentSpeaker := some l
            switchCount := st.switchCount + 1
            lastSwitchAt := now
            pendingSpeaker := none }, switchCommands st l) := by
  unfold autoSwitchTick
  split
  · exact Or.inl rfl
  · split
    · exact Or.inl rfl
    · rename_i hcool
      split
      · exact Or.inl rfl
      · rename_i l p hf
        split
        · exact Or.inl rfl
        · split
          · exact Or.inl rfl
          · split
            · exact Or.inl rfl
            · split
              · rename_i hcur _ hpend hhold
                refine Or.inr ⟨l, p, hf, hcur, ?_, hhold, hcool, rfl⟩
                by_contra hne
                exact hpend hne
              · exact Or.inl rfl

/-- Shape facts about one tick: the configuration fields are never touched,
and a tick that dispatches no command leaves the confirmed speaker, the
switch counter and the last-switch timestamp untouched. -/
theorem tick_shape (conn : Bool) (lv : AudioLevels) (st : AutoSwitchState) (now : ℤ) :
    (autoSwitchTick conn lv st now).1.cooldownMs = st.cooldownMs ∧
    (autoSwitchTick conn lv st now).1.holdMs = st.holdMs ∧
    (autoSwitchTick conn lv st now).1.candidates = st.candidates ∧
    ((autoSwitchTick conn lv st now).2 = [] →
      (autoSwitchTick conn lv st now).1.currentSpeaker = st.currentSpeaker ∧
      (autoSwitchTick conn lv st now).1.switchCount = st.switchCount ∧
      (autoSwitchTick conn lv st now).1.lastSwitchAt = st.lastSwitchAt) := by
  unfold autoSwitchTick
  repeat' split
  all_goals
    first
      | exact ⟨rfl, rfl, rfl, fun _ => ⟨rfl, rfl, rfl⟩⟩
      | exact ⟨rfl, rfl, rfl, fun h => absurd h (switchCommands_ne_nil st _)⟩

/-- The cooldown guard: within `cooldownMs` of the last switch the tick
returns with no state change and no command. -/
theorem tick_eq_of_cooldown (lv : AudioLevels) (st : AutoSwitchState) (now : ℤ)
    (h1 : 0 < st.lastSwitchAt) (h2 : now - st.lastSwitchAt < st.cooldownMs) :
    autoSwitchTick true lv st now = (st, []) := by
  unfold autoSwitchTick
  simp [h1, h2]

/-- Reaching the pending stage with a loudest candidate that differs from
the pending one replaces the pending candidate and restarts its timer. -/
theorem tick_eq_of_new_pending (lv : AudioLevels) (st : AutoSwitchState) (now : ℤ)
    (l : ℕ) (p : ℚ)
    (hcool : ¬(0 < st.lastSwitchAt ∧ now - st.lastSwitchAt < st.cooldownMs))
    (hf : findLoudest lv now st.candidates = (some l, p))
    (hcur : st.currentSpeaker ≠ some l)
    (hstick : stickinessBlocks lv now st.currentSpeaker p = false)
    (hpend : st.pendingSpeaker ≠ some l) :
    autoSwitchTick true lv st now =
      ({ st with pendingSpeaker := some l, pendingSince := now }, []) := by
  unfold autoSwitchTick
  rw [if_neg (by simp), if_neg hcool, hf]
  simp only
  rw [if_neg hcur, if_neg (by simp [hstick]), if_pos hpend]

/-- The already-correct guard: a loudest candidate equal to the confirmed
speaker clears the pending state and ends the tick. -/
theorem tick_eq_of_same_speaker (lv : AudioLevels) (st : AutoSwitchState) (now : ℤ)
    (l : ℕ) (p : ℚ)
    (hcool : ¬(0 < st.lastSwitchAt ∧ now - st.lastSwitchAt < st.cooldownMs))
    (hf : findLoudest lv now st.candidates = (some l, p))
    (hcur : st.currentSpeaker = some l) :
    autoSwitchTick true lv st now = ({ st with pendingSpeaker := none }, []) := by
  unfold autoSwitchTick
  rw [if_neg (by simp), if_neg hcool, hf]
  simp only
  rw [if_pos hcur]

/-- The stickiness guard: a blocked challenger clears the pending state and
ends the tick. -/
theorem tick_eq_of_blocked (lv : AudioLevels) (st : AutoSwitchState) (now : ℤ)
    (l : ℕ) (p : ℚ)
    (hcool : ¬(0 < st.lastSwitchAt ∧ now - st.lastSwitchAt < st.cooldownMs))
    (hf : findLoudest lv now st.candidates = (some l, p))
    (hcur : st.currentSpeaker ≠ some l)
    (hstick : stickinessBlocks lv now st.currentSpeaker p = true) :
    autoSwitchTick true lv st now = ({ st with pendingSpeaker := none }, []) := by
  unfold autoSwitchTick
  rw [if_neg (by simp), if_neg hcool, hf]
  simp only
  rw [if_neg hcur, if_pos hstick]

/-- Evaluation helper: the stickiness check is off whenever the challenger
clears the 200 margin over the confirmed speaker's smoothed level. -/
theorem stickinessBlocks_of_not_lt {lv : AudioLevels} {now : ℤ} {cur : ℕ} {p : ℚ}
    (h : ¬ (p - getSmoothedLevel lv now cur < 200)) :
    stickinessBlocks lv now (some cur) p = false := by
  have hdef : stickinessBlocks lv now (some cur) p =
      (decide (SILENCE_THRESHOLD < getSmoothedLevel lv now cur) &&
       decide (p - getSmoothedLevel lv now cur < 200)) := rfl
  rw [hdef, decide_eq_false h, Bool.and_false]

/-! ### Cooldown separation along a run -/

/-- Predicate `sepFrom c last ts`: every time in `ts` is positive, the first one is at
least `c` past `last` whenever `last` is positive, and consecutive times are
at least `c` apart. -/
def sepFrom (c last : ℤ) : List ℤ → Prop
  | [] => True
  | t :: ts => (0 < last → c ≤ t - last) ∧ 0 < t ∧ sepFrom c t ts

theorem runTicks_sepFrom (c : ℤ) :
    ∀ (ticks : List (Bool × AudioLevels × ℤ)) (st : AutoSwitchState),
      st.cooldownMs = c → (∀ p ∈ ticks, 0 < p.2.2) →
      sepFrom c st.lastSwitchAt (runTicks st ticks).2 := by
  intro ticks
  induction ticks with
  | nil => intro st _ _; trivial
  | cons tk rest ih =>
    intro st hc hpos
    obtain ⟨conn, lv, t⟩ := tk
    have hposrest : ∀ p ∈ rest, 0 < p.2.2 := fun p hp => hpos p (List.mem_cons_of_mem _ hp)
    have hshape := tick_shape conn lv st t
    have hcfg : (autoSwitchTick conn lv st t).1.cooldownMs = c := hshape.1.trans hc
    have htail := ih (autoSwitchTick conn lv st t).1 hcfg hposrest
    show sepFrom c st.lastSwitchAt
      ((if (autoSwitchTick conn lv st t).2 = [] then [] else [t]) ++
        (runTicks (autoSwitchTick conn lv st t).1 rest).2)
    by_cases hnil : (autoSwitchTick conn lv st t).2 = []
    · rw [if_pos hnil, List.nil_append]
      have hlast := (hshape.2.2.2 hnil).2.2
      rwa [hlast] at htail
    · rw [if_neg hnil, List.singleton_append]
      rcases tick_cases conn lv st t with hcmds | ⟨l, p, _, _, _, _, hcool, heq⟩
      · exact absurd hcmds hnil
      · have hlast : (autoSwitchTick conn lv st t).1.lastSwitchAt = t := by
          rw [heq]
        refine ⟨?_, hpos (conn, lv, t) (List.mem_cons_self _ _), ?_⟩
        · intro h0
          by_contra hlt
          push_neg at hlt
          exact hcool ⟨h0, by rw [hc]; exact hlt⟩
        · rwa [hlast] at htail

theorem sepFrom_head {c : ℤ} (hc : 0 ≤ c) :
    ∀ (ts : List ℤ) (t : ℤ), 0 < t → sepFrom c t ts → ∀ b ∈ ts, c ≤ b - t := by
  intro ts
  induction ts with
  | nil => intro t _ _ b hb; exact absurd hb (List.not_mem_nil b)
  | cons t1 ts' ih =>
    intro t ht h b hb
    obtain ⟨h1, ht1, hrest⟩ := h
    rcases List.mem_cons.mp hb with hb | hb
    · exact hb ▸ h1 ht
    · have hb1 := ih t1 ht1 hrest b hb
      have htt1 := h1 ht
      linarith

theorem sepFrom_pairwise {c : ℤ} (hc : 0 ≤ c) :
    ∀ (ts : List ℤ) (last : ℤ), sepFrom c last ts →
      ts.Pairwise (fun a b => c ≤ b - a) := by
  intro ts
  induction ts with
  | nil => intro _ _; exact List.Pairwise.nil
  | cons t ts' ih =>
    intro last h
    obtain ⟨_, ht, hrest⟩ := h
    exact List.pairwise_cons.mpr ⟨sepFrom_head hc ts' t ht hrest, ih t hrest⟩

/-! ### Selector membership facts -/

theorem activeResults_mem {lv : AudioLevels} {now : ℤ} {cands : Option (List ℕ)}
    {inc : Bool} {e : ℕ × ℚ} (h : e ∈ activeResults lv now cands inc) :
    ∃ d, (e.1, d) ∈ lv ∧ ¬ (LEVEL_WINDOW_MS < now - d.lastUpdate) ∧
      notInCandidates cands e.1 = false ∧ e.2 = d.smoothedLevel ∧
      (inc = false → SILENCE_THRESHOLD < d.smoothedLevel) := by
  unfold activeResults at h
  rw [List.mem_filterMap] at h
  obtain ⟨a, ha, hf⟩ := h
  split at hf
  · exact absurd hf (by simp)
  · split at hf
    · exact absurd hf (by simp)
    · split at hf
      · exact absurd hf (by simp)
      · rename_i hstale hcand hsil
        rw [Option.some_inj] at hf
        subst hf
        refine ⟨a.2, ha, hstale, by simpa using hcand, rfl, ?_⟩
        intro hincf
        by_contra hle
        push_neg at hle
        exact hsil ⟨hincf, hle⟩

theorem activeResults_eq_nil {lv : AudioLevels} {now : ℤ} {cands : Option (List ℕ)}
    (h : ∀ e ∈ lv, (e : ℕ × InputAudioLevel).2.smoothedLevel ≤ SILENCE_THRESHOLD) :
    activeResults lv now cands false = [] := by
  unfold activeResults
  rw [List.filterMap_eq_nil_iff]
  intro a ha
  split
  · rfl
  · split
    · rfl
    · rw [if_pos ⟨rfl, h a ha⟩]

/-! ### Tracker map facts -/

theorem lookup_setLevel_self (lv : AudioLevels) (ch : ℕ) (d : InputAudioLevel) :
    lookupLevel (setLevel lv ch d) ch = some d := by
  induction lv with
  | nil => simp [setLevel, lookupLevel]
  | cons e rest ih =>
    obtain ⟨i, d0⟩ := e
    unfold setLevel
    by_cases h : i = ch
    · simp [h, lookupLevel]
    · simp [h, lookupLevel, ih]

theorem lookup_setLevel_other {i ch : ℕ} (lv : AudioLevels) (d : InputAudioLevel)
    (h : i ≠ ch) : lookupLevel (setLevel lv i d) ch = lookupLevel lv ch := by
  induction lv with
  | nil => simp [setLevel, lookupLevel, h]
  | cons e rest ih =>
    obtain ⟨j, d0⟩ := e
    unfold setLevel
    by_cases hj : j = i
    · subst hj
      simp [lookupLevel, h]
    · simp only [if_neg hj]
      unfold lookupLevel
      by_cases hjc : j = ch <;> simp [hjc, ih]

theorem lookup_append_other {i ch : ℕ} (lv : AudioLevels) (d : InputAudioLevel)
    (h : i ≠ ch) : lookupLevel (lv ++ [(i, d)]) ch = lookupLevel lv ch := by
  induction lv with
  | nil => simp [lookupLevel, h]
  | cons e rest ih =>
    obtain ⟨j, d0⟩ := e
    unfold lookupLevel
    by_cases hjc : j = ch <;> simp [hjc, ih]

theorem lookup_append_self {ch : ℕ} (lv : AudioLevels) (d : InputAudioLevel)
    (h : lookupLevel lv ch = none) : lookupLevel (lv ++ [(ch, d)]) ch = some d := by
  induction lv with
  | nil => simp [lookupLevel]
  | cons e rest ih =>
    obtain ⟨j, d0⟩ := e
    unfold lookupLevel at h
    rw [List.cons_append]
    unfold lookupLevel
    by_cases hjc : j = ch
    · simp [hjc] at h
    · simp only [if_neg hjc] at h ⊢
      exact ih h

theorem lookup_recordSample_other {i ch : ℕ} (lv : AudioLevels) (p : ℚ) (t : ℤ)
    (h : i ≠ ch) : lookupLevel (recordSample lv i p t) ch = lookupLevel lv ch := by
  unfold recordSample
  split
  · exact lookup_setLevel_other lv _ h
  · exact lookup_append_other lv _ h

theorem recordSample_creates {ch : ℕ} (lv : AudioLevels) (p : ℚ) (t : ℤ)
    (h : lookupLevel lv ch = none) :
    lookupLevel (recordSample lv ch p t) ch =
      some { samples := [p], smoothedLevel := p, recentPeak := p, lastUpdate := t } := by
  unfold recordSample
  rw [h]
  exact lookup_append_self lv _ h

theorem recordSample_updates {ch : ℕ} {r : InputAudioLevel} (lv : AudioLevels)
    (p : ℚ) (t : ℤ) (h : lookupLevel lv ch = some r) :
    lookupLevel (recordSample lv ch p t) ch =
      some { samples :=
               if SAMPLE_WINDOW_SIZE < (r.samples ++ [p]).length then (r.samples ++ [p]).tail
               else r.samples ++ [p]
             smoothedLevel := EMA_ALPHA * p + (1 - EMA_ALPHA) * r.smoothedLevel
             recentPeak := p
             lastUpdate := t } := by
  unfold recordSample
  rw [h]
  exact lookup_setLevel_self lv ch _

theorem lookup_eq_none_not_mem {ch : ℕ} {lv : AudioLevels}
    (h : lookupLevel lv ch = none) : ∀ d, (ch, d) ∉ lv := by
  induction lv with
  | nil => intro d hd; exact absurd hd (List.not_mem_nil _)
  | cons e rest ih =>
    obtain ⟨j, d0⟩ := e
    unfold lookupLevel at h
    by_cases hjc : j = ch
    · simp [hjc] at h
    · simp only [if_neg hjc] at h
      intro d hd
      rcases List.mem_cons.mp hd with hd | hd
      · exact hjc (congrArg Prod.fst hd).symm
      · exact ih h d hd

theorem mem_lookup_of_nodup {ch : ℕ} {d : InputAudioLevel} {lv : AudioLevels}
    (hnd : (lv.map Prod.fst).Nodup) (hd : (ch, d) ∈ lv) :
    lookupLevel lv ch = some d := by
  induction lv with
  | nil => exact absurd hd (List.not_mem_nil _)
  | cons e rest ih =>
    obtain ⟨j, d0⟩ := e
    rw [List.map_cons, List.nodup_cons] at hnd
    obtain ⟨hj, hrest⟩ := hnd
    unfold lookupLevel
    rcases List.mem_cons.mp hd with hd | hd
    · obtain ⟨h1, h2⟩ := Prod.mk.injEq .. ▸ hd.symm
      simp [h1, h2]
    · by_cases hjc : j = ch
      · subst hjc
        exact absurd (List.mem_map_of_mem Prod.fst hd) hj
      · simp only [if_neg hjc]
        exact ih hrest hd

theorem deliver_smoothed_of_some :
    ∀ (trips : List (ℕ × ℚ × ℤ)) (lv : AudioLevels) (ch : ℕ) (r : InputAudioLevel),
      lookupLevel lv ch = some r →
      Option.map InputAudioLevel.smoothedLevel (lookupLevel (deliverSamples lv trips) ch) =
        some (((trips.filter (fun tr => tr.1 == ch)).map (fun tr => tr.2.1)).foldl
          (fun acc x => EMA_ALPHA * x + (1 - EMA_ALPHA) * acc) r.smoothedLevel) := by
  intro trips
  induction trips with
  | nil =>
    intro lv ch r h
    simp [deliverSamples, h]
  | cons tr rest ih =>
    intro lv ch r h
    obtain ⟨i, p, t⟩ := tr
    show Option.map InputAudioLevel.smoothedLevel
      (lookupLevel (deliverSamples (recordSample lv i p t) rest) ch) = _
    by_cases hic : i = ch
    · subst hic
      have hup := recordSample_updates lv p t h
      have := ih (recordSample lv i p t) i _ hup
      rw [this]
      simp [List.filter_cons]
    · have hkeep := lookup_recordSample_other lv p t hic
      have := ih (recordSample lv i p t) ch r (hkeep.trans h)
      rw [this]
      simp [List.filter_cons, hic]

/-- The confirmed-switch branch as an equation: when every guard passes, the
pending candidate equals the loudest and has held for `holdMs`, the tick
installs it and dispatches the mode's commands. -/
theorem tick_eq_of_switch (lv : AudioLevels) (st : AutoSwitchState) (now : ℤ)
    (l : ℕ) (p : ℚ)
    (hcool : ¬(0 < st.lastSwitchAt ∧ now - st.lastSwitchAt < st.cooldownMs))
    (hf : findLoudest lv now st.candidates = (some l, p))
    (hcur : st.currentSpeaker ≠ some l)
    (hstick : stickinessBlocks lv now st.currentSpeaker p = false)
    (hpend : st.pendingSpeaker = some l)
    (hhold : st.holdMs ≤ now - st.pendingSince) :
    autoSwitchTick true lv st now =
      ({ st with
          currentSpeaker := some l
          switchCount := st.switchCount + 1
          lastSwitchAt := now
          pendingSpeaker := none }, switchCommands st l) := by
  unfold autoSwitchTick
  rw [if_neg (by simp), if_neg hcool, hf]
  simp only
  rw [if_neg hcur, if_neg (by simp [hstick]), if_neg (by simp [hpend]), if_pos hhold]

/-! ### Claim theorems -/

/-- C1: on a tick that reaches the stickiness check (cooldown passed, a
loudest candidate above threshold differing from the confirmed speaker,
and the confirmed speaker's smoothed level strictly above the silence
threshold), a margin of at most 199 clears the pending state and ends the
tick, while a margin of at least 200 lets the candidate become pending. -/
theorem stickiness_margin_boundary (lv : AudioLevels) (st : AutoSwitchState) (now : ℤ)
    (l cur : ℕ) (p : ℚ)
    (hcool : ¬(0 < st.lastSwitchAt ∧ now - st.lastSwitchAt < st.cooldownMs))
    (hf : findLoudest lv now st.candidates = (some l, p))
    (hcur : st.currentSpeaker = some cur)
    (hne : cur ≠ l)
    (habove : SILENCE_THRESHOLD < getSmoothedLevel lv now cur) :
    (p - getSmoothedLevel lv now cur ≤ 199 →
      autoSwitchTick true lv st now = ({ st with pendingSpeaker := none }, [])) ∧
    (200 ≤ p - getSmoothedLevel lv now cur → st.pendingSpeaker ≠ some l →
      autoSwitchTick true lv st now =
        ({ st with pendingSpeaker := some l, pendingSince := now }, [])) := by
  have hcurne : st.currentSpeaker ≠ some l := by
    rw [hcur]
    intro hh
    exact hne (Option.some_inj.mp hh)
  constructor
  · intro hle
    apply tick_eq_of_blocked lv st now l p hcool hf hcurne
    unfold stickinessBlocks
    rw [hcur]
    simp only [decide_eq_true habove,
      decide_eq_true (show p - getSmoothedLevel lv now cur < 200 by linarith),
      Bool.and_self]
  · intro hge hpend
    apply tick_eq_of_new_pending lv st now l p hcool hf hcurne _ hpend
    unfold stickinessBlocks
    rw [hcur]
    simp only [decide_eq_false (not_lt.mpr hge), Bool.and_false]

/-- C2: (a) whenever the tick reaches the pending stage and the loudest
candidate differs from the pending one, the candidate becomes pending with
its confirmation timer restarted at this tick's `now`, and no switch is
dispatched; (b) a tick dispatches commands only when the loudest candidate
was already pending and `holdMs` has elapsed since `pendingSince`, and then
it becomes the confirmed speaker. -/
theorem hold_confirmation_and_reset :
    (∀ (lv : AudioLevels) (st : AutoSwitchState) (now : ℤ) (l : ℕ) (p : ℚ),
      ¬(0 < st.lastSwitchAt ∧ now - st.lastSwitchAt < st.cooldownMs) →
      findLoudest lv now st.candidates = (some l, p) →
      st.currentSpeaker ≠ some l →
      stickinessBlocks lv now st.currentSpeaker p = false →
      st.pendingSpeaker ≠ some l →
      autoSwitchTick true lv st now =
        ({ st with pendingSpeaker := some l, pendingSince := now }, [])) ∧
    (∀ (conn : Bool) (lv : AudioLevels) (st : AutoSwitchState) (now : ℤ),
      (autoSwitchTick conn lv st now).2 ≠ [] →
      ∃ l p, findLoudest lv now st.candidates = (some l, p) ∧
        st.pendingSpeaker = some l ∧ st.holdMs ≤ now - st.pendingSince ∧
        (autoSwitchTick conn lv st now).1.currentSpeaker = some l) := by
  constructor
  · exact tick_eq_of_new_pending
  · intro conn lv st now hne
    rcases tick_cases conn lv st now with hnil | ⟨l, p, hf, _, hpend, hhold, _, heq⟩
    · exact absurd hnil hne
    · exact ⟨l, p, hf, hpend, hhold, by rw [heq]⟩

/-- C3: a tick within `cooldownMs` of a positive `lastSwitchAt` changes
nothing and dispatches nothing; a tick that dispatches commands stamps
`lastSwitchAt` with its `now`; and along any run of ticks with positive
clock readings, any two switch timestamps are at least `cooldownMs` apart. -/
theorem cooldown_separation :
    (∀ (lv : AudioLevels) (st : AutoSwitchState) (now : ℤ),
      0 < st.lastSwitchAt → now - st.lastSwitchAt < st.cooldownMs →
      autoSwitchTick true lv st now = (st, [])) ∧
    (∀ (conn : Bool) (lv : AudioLevels) (st : AutoSwitchState) (now : ℤ),
      (autoSwitchTick conn lv st now).2 ≠ [] →
      (autoSwitchTick conn lv st now).1.lastSwitchAt = now) ∧
    (∀ (st : AutoSwitchState) (ticks : List (Bool × AudioLevels × ℤ)),
      0 ≤ st.cooldownMs → (∀ p ∈ ticks, 0 < p.2.2) →
      (runTicks st ticks).2.Pairwise (fun a b => st.cooldownMs ≤ b - a)) := by
  refine ⟨tick_eq_of_cooldown, ?_, ?_⟩
  · intro conn lv st now h
    rcases tick_cases conn lv st now with hnil | ⟨l, p, _, _, _, _, _, heq⟩
    · exact absurd hnil h
    · rw [heq]
  · intro st ticks hc hpos
    exact sepFrom_pairwise hc _ _ (runTicks_sepFrom st.cooldownMs ticks st rfl hpos)

/-- C4: for a channel with no prior record, after any sequence of samples
the stored smoothed level is exactly the iterated EMA recurrence over that
channel's samples in order, seeded to the first one - independent of the
sample timestamps and of samples delivered to other channels. -/
theorem smoothed_level_ema (trips : List (ℕ × ℚ × ℤ)) (lv : AudioLevels) (ch : ℕ)
    (h : lookupLevel lv ch = none) :
    Option.map InputAudioLevel.smoothedLevel (lookupLevel (deliverSamples lv trips) ch) =
      emaIter ((trips.filter (fun tr => tr.1 == ch)).map (fun tr => tr.2.1)) := by
  induction trips generalizing lv with
  | nil => simp [deliverSamples, h, emaIter]
  | cons tr rest ih =>
    obtain ⟨i, p, t⟩ := tr
    show Option.map InputAudioLevel.smoothedLevel
      (lookupLevel (deliverSamples (recordSample lv i p t) rest) ch) = _
    by_cases hic : i = ch
    · subst hic
      have hc := recordSample_creates lv p t h
      rw [deliver_smoothed_of_some rest (recordSample lv i p t) i _ hc]
      simp [List.filter_cons, emaIter]
    · have hkeep := lookup_recordSample_other lv p t hic
      rw [ih (recordSample lv i p t) (hkeep.trans h)]
      simp [List.filter_cons, hic]

/-- C5: a channel whose record is absent, or whose last sample is older
than the staleness window, reads the silent sentinel from both level
getters and never appears in the selector's ranked output - all three
reads are ordinary values, not errors. -/
theorem stale_reads_silent (levels : AudioLevels) (now : ℤ) (ch : ℕ)
    (cands : Option (List ℕ)) (inc : Bool)
    (hnd : (levels.map Prod.fst).Nodup)
    (h : lookupLevel levels ch = none ∨
         ∃ d, lookupLevel levels ch = some d ∧ LEVEL_WINDOW_MS < now - d.lastUpdate) :
    getInstantaneousPeak levels now ch = -10000 ∧
    getSmoothedLevel levels now ch = -10000 ∧
    ∀ q, (ch, q) ∉ getActiveInputsByAudioLevel levels now cands inc := by
  refine ⟨?_, ?_, ?_⟩
  · unfold getInstantaneousPeak
    rcases h with h | ⟨d, hd, hst⟩
    · rw [h]
    · rw [hd]
      simp [hst]
  · unfold getSmoothedLevel
    rcases h with h | ⟨d, hd, hst⟩
    · rw [h]
    · rw [hd]
      simp [hst]
  · intro q hq
    have hmem := mem_sortDesc.mp hq
    obtain ⟨d, hdmem, hfresh, _, _, _⟩ := activeResults_mem hmem
    rcases h with h | ⟨d', hd', hst⟩
    · exact lookup_eq_none_not_mem h d hdmem
    · have hl := mem_lookup_of_nodup hnd hdmem
      rw [hd'] at hl
      exact hfresh ((Option.some_inj.mp hl) ▸ hst)

/-- C6 (counterexample): with equal smoothed levels, the selector's output
follows the tracker map's insertion order (channel 5 first, because its
first sample arrived first), not channel index ascending. -/
theorem rank_tiebreak_counterexample :
    getActiveInputsByAudioLevel (recordSample (recordSample [] 5 (-1000) 0) 2 (-1000) 0)
        0 none false = [(5, -1000), (2, -1000)] ∧
    ¬ ((getActiveInputsByAudioLevel (recordSample (recordSample [] 5 (-1000) 0) 2 (-1000) 0)
        0 none false).map Prod.fst).Pairwise (fun a b => a ≤ b) := by
  refine ⟨rfl, ?_⟩
  intro hp
  rw [show (getActiveInputsByAudioLevel
      (recordSample (recordSample [] 5 (-1000) 0) 2 (-1000) 0) 0 none false).map Prod.fst
      = [5, 2] from rfl] at hp
  rw [List.pairwise_cons] at hp
  exact absurd (hp.1 2 (List.mem_singleton_self 2)) (by norm_num)

/-- C6 (amended): the selector's output is sorted descending by level, is a
permutation of the filtered pass over the tracker map, keeps equal-level
entries in the tracker map's insertion order (the order of each channel's
first sample), keeps only entries strictly above the silence threshold
unless `includeAll` is set, and is empty when no record is above the
threshold.  It is a pure function of the tracker state. -/
theorem rank_order_spec (levels : AudioLevels) (now : ℤ)
    (cands : Option (List ℕ)) (inc : Bool) :
    (getActiveInputsByAudioLevel levels now cands inc).Pairwise (fun a b => b.2 ≤ a.2) ∧
    (getActiveInputsByAudioLevel levels now cands inc).Perm
      (activeResults levels now cands inc) ∧
    (∀ v, (getActiveInputsByAudioLevel levels now cands inc).filter
        (fun e => decide (e.2 = v)) =
      (activeResults levels now cands inc).filter (fun e => decide (e.2 = v))) ∧
    (inc = false → ∀ e ∈ getActiveInputsByAudioLevel levels now cands inc,
      SILENCE_THRESHOLD < e.2) ∧
    (inc = false →
      (∀ e ∈ levels, (e : ℕ × InputAudioLevel).2.smoothedLevel ≤ SILENCE_THRESHOLD) →
      getActiveInputsByAudioLevel levels now cands inc = []) := by
  refine ⟨sorted_sortDesc _, perm_sortDesc _, fun v => filter_sortDesc _ v, ?_, ?_⟩
  · intro hinc e he
    have hmem := mem_sortDesc.mp he
    obtain ⟨d, _, _, _, heq, hth⟩ := activeResults_mem hmem
    rw [heq]
    exact hth hinc
  · intro hinc hall
    subst hinc
    unfold getActiveInputsByAudioLevel
    rw [activeResults_eq_nil hall]
    rfl

/-- C7: each of the three `startAutoSwitch` guards (run already active, no
device connection, level tracking inactive) returns an error marker and
leaves the whole engine state - including any active run - untouched. -/
theorem start_guard_errors (eng : EngineState) (opts : StartOptions) (now : ℤ)
    (h : eng.autoSwitch.isSome = true ∨ eng.hasAtemInstance = false ∨
         eng.isConnected = false ∨ eng.levelTrackingActive = false) :
    (startAutoSwitch eng opts now).1 = eng ∧
    (startAutoSwitch eng opts now).2 ≠ StartAutoSwitchResult.started := by
  unfold startAutoSwitch
  split
  · exact ⟨rfl, by simp⟩
  · split
    · exact ⟨rfl, by simp⟩
    · split
      · exact ⟨rfl, by simp⟩
      · rename_i h1 h2 h3
        exfalso
        rcases h with h | h | h | h
        · exact h1 h
        · exact h2 (Or.inl h)
        · exact h2 (Or.inr h)
        · exact h3 h

/-- C8 (counterexample): in `host_ssrc` mode with `hostInput := 12` and no
explicit candidate list, the run starts with default candidates 1-8, which
do not include the host channel. -/
theorem host_default_candidates_counterexample :
    (startAutoSwitch
        { hasAtemInstance := true, isConnected := true, levelTrackingActive := true,
          audioLevels := [], autoSwitch := none }
        { candidates := none, hostInput := some 12, holdMs := none, intervalMs := none,
          cooldownMs := none, me := none, transition := none,
          mode := some SwitchMode.host_ssrc, ssrcBox := none, ssrcId := none } 0).2 =
      StartAutoSwitchResult.started ∧
    (startAutoSwitch
        { hasAtemInstance := true, isConnected := true, levelTrackingActive := true,
          audioLevels := [], autoSwitch := none }
        { candidates := none, hostInput := some 12, holdMs := none, intervalMs := none,
          cooldownMs := none, me := none, transition := none,
          mode := some SwitchMode.host_ssrc, ssrcBox := none, ssrcId := none } 0).1.autoSwitch.map
        AutoSwitchState.hostInput = some 12 ∧
    (startAutoSwitch
        { hasAtemInstance := true, isConnected := true, levelTrackingActive := true,
          audioLevels := [], autoSwitch := none }
        { candidates := none, hostInput := some 12, holdMs := none, intervalMs := none,
          cooldownMs := none, me := none, transition := none,
          mode := some SwitchMode.host_ssrc, ssrcBox := none, ssrcId := none } 0).1.autoSwitch.map
        AutoSwitchState.candidates = some [1, 2, 3, 4, 5, 6, 7, 8] ∧
    (12 : ℕ) ∉ ([1, 2, 3, 4, 5, 6, 7, 8] : List ℕ) :=
  ⟨rfl, rfl, rfl, by decide⟩

/-- C8 (amended): on a confirmed switch in `host_ssrc` mode the executor
sends the host full-screen to program when the new speaker is the host, and
otherwise writes the speaker into the configured Super Source box and then
routes program to the Super Source (source 6000), in that order; with no
explicit candidate list the default candidate set in `host_ssrc` mode is
channels 1-8, which contains the host channel whenever the host is one of
1-8 (as the default host 7 is). -/
theorem host_hybrid_executor :
    (∀ (conn : Bool) (lv : AudioLevels) (st : AutoSwitchState) (now : ℤ),
      st.mode = SwitchMode.host_ssrc →
      (autoSwitchTick conn lv st now).2 ≠ [] →
      ∃ l, (autoSwitchTick conn lv st now).1.currentSpeaker = some l ∧
        (l = st.hostInput →
          (autoSwitchTick conn lv st now).2 = [AtemCommand.changeProgramInput l st.me]) ∧
        (l ≠ st.hostInput →
          (autoSwitchTick conn lv st now).2 =
            [AtemCommand.setSuperSourceBoxSource l st.ssrcBox st.ssrcId,
             AtemCommand.changeProgramInput 6000 st.me])) ∧
    (∀ (eng : EngineState) (opts : StartOptions) (now : ℤ) (engFinal : EngineState),
      opts.candidates = none → opts.mode = some SwitchMode.host_ssrc →
      startAutoSwitch eng opts now = (engFinal, StartAutoSwitchResult.started) →
      ∃ st, engFinal.autoSwitch = some st ∧
        st.candidates = [1, 2, 3, 4, 5, 6, 7, 8] ∧
        st.hostInput = opts.hostInput.getD 7 ∧
        (st.hostInput ∈ ([1, 2, 3, 4, 5, 6, 7, 8] : List ℕ) →
          st.hostInput ∈ st.candidates)) := by
  constructor
  · intro conn lv st now hmode hne
    rcases tick_cases conn lv st now with hnil | ⟨l, p, _, _, _, _, _, heq⟩
    · exact absurd hnil hne
    · refine ⟨l, by rw [heq], ?_, ?_⟩
      · intro hl
        rw [heq]
        show switchCommands st l = _
        unfold switchCommands
        rw [hmode]
        simp [hl]
      · intro hl
        rw [heq]
        show switchCommands st l = _
        unfold switchCommands
        rw [hmode]
        simp [hl]
  · intro eng opts now engFinal hcand hmode heq
    unfold startAutoSwitch at heq
    split at heq
    · exact absurd (congrArg Prod.snd heq) (by simp)
    · split at heq
      · exact absurd (congrArg Prod.snd heq) (by simp)
      · split at heq
        · exact absurd (congrArg Prod.snd heq) (by simp)
        · have hfst := congrArg Prod.fst heq
          simp only at hfst
          refine ⟨_, by rw [← hfst], ?_, ?_, ?_⟩
          · simp [hcand, hmode]
          · rfl
          · intro hmem
            simp [hcand, hmode, hmem]

/-- C9: the disconnect handler force-stops any active run (the run state is
discarded), clears every per-channel level record, and drops the tracking
flag, so every read afterwards sees an empty tracker and no run. -/
theorem disconnect_clears_state (eng : EngineState) (ch : ℕ) (now : ℤ)
    (cands : Option (List ℕ)) (inc : Bool) :
    (onDisconnected eng).autoSwitch = none ∧
    (onDisconnected eng).isConnected = false ∧
    (onDisconnected eng).levelTrackingActive = false ∧
    (onDisconnected eng).audioLevels = [] ∧
    lookupLevel (onDisconnected eng).audioLevels ch = none ∧
    getInstantaneousPeak (onDisconnected eng).audioLevels now ch = -10000 ∧
    getSmoothedLevel (onDisconnected eng).audioLevels now ch = -10000 ∧
    getActiveInputsByAudioLevel (onDisconnected eng).audioLevels now cands inc = [] :=
  ⟨rfl, rfl, rfl, rfl, rfl, rfl, rfl, rfl⟩

/-- C10: a tick that dispatches commands always installs a confirmed
speaker different from the previous one and counts exactly one switch; a
tick that dispatches nothing changes neither; and a loudest candidate equal
to the confirmed speaker ends the tick with only the pending state
cleared. -/
theorem switch_changes_speaker :
    (∀ (conn : Bool) (lv : AudioLevels) (st : AutoSwitchState) (now : ℤ),
      (autoSwitchTick conn lv st now).2 ≠ [] →
      (autoSwitchTick conn lv st now).1.currentSpeaker ≠ st.currentSpeaker ∧
      (autoSwitchTick conn lv st now).1.switchCount = st.switchCount + 1) ∧
    (∀ (conn : Bool) (lv : AudioLevels) (st : AutoSwitchState) (now : ℤ),
      (autoSwitchTick conn lv st now).2 = [] →
      (autoSwitchTick conn lv st now).1.currentSpeaker = st.currentSpeaker ∧
      (autoSwitchTick conn lv st now).1.switchCount = st.switchCount) ∧
    (∀ (lv : AudioLevels) (st : AutoSwitchState) (now : ℤ) (l : ℕ) (p : ℚ),
      ¬(0 < st.lastSwitchAt ∧ now - st.lastSwitchAt < st.cooldownMs) →
      findLoudest lv now st.candidates = (some l, p) →
      st.currentSpeaker = some l →
      autoSwitchTick true lv st now = ({ st with pendingSpeaker := none }, [])) := by
  refine ⟨?_, ?_, tick_eq_of_same_speaker⟩
  · intro conn lv st now h
    rcases tick_cases conn lv st now with hnil | ⟨l, p, _, hcur, _, _, _, heq⟩
    · exact absurd hnil h
    · constructor
      · rw [heq]
        exact fun hh => hcur hh.symm
      · rw [heq]
  · intro conn lv st now h
    have hs := (tick_shape conn lv st now).2.2.2 h
    exact ⟨hs.1, hs.2.1⟩

/-! ### Witnesses: the claim theorems at concrete inputs -/

/-- C1 witness: with channel 1 confirmed at smoothed -1000 and channel 2
peaking at -800 (margin exactly 200), channel 2 becomes pending. -/
theorem stickiness_margin_boundary_witness :
    autoSwitchTick true twoSpeakerLevels baseRunState 100 =
      ({ baseRunState with pendingSpeaker := some 2, pendingSince := 100 }, []) := by
  have hsm : getSmoothedLevel twoSpeakerLevels 100 1 = -1000 := rfl
  have h := stickiness_margin_boundary twoSpeakerLevels baseRunState 100 2 1 (-800)
    (by
      intro hh
      rw [show baseRunState.lastSwitchAt = 0 from rfl] at hh
      exact absurd hh.1 (by norm_num))
    rfl rfl (by norm_num)
    (by rw [hsm]; norm_num [SILENCE_THRESHOLD])
  exact h.2 (by rw [hsm]; norm_num)
    (by rw [show baseRunState.pendingSpeaker = none from rfl]; simp)

/-- C2 witness: a differing loudest candidate replaces the pending one with
its timer restarted, and a held pending candidate is confirmed. -/
theorem hold_confirmation_and_reset_witness :
    autoSwitchTick true twoSpeakerLevels pendingOneState 100 =
      ({ pendingOneState with pendingSpeaker := some 2, pendingSince := 100 }, []) ∧
    ∃ l p, findLoudest twoSpeakerLevels 1000 pendingRunState.candidates = (some l, p) ∧
      pendingRunState.pendingSpeaker = some l ∧
      pendingRunState.holdMs ≤ 1000 - pendingRunState.pendingSince ∧
      (autoSwitchTick true twoSpeakerLevels pendingRunState 1000).1.currentSpeaker =
        some l := by
  constructor
  · exact hold_confirmation_and_reset.1 twoSpeakerLevels pendingOneState 100 2 (-800)
      (by
        intro hh
        rw [show pendingOneState.lastSwitchAt = 0 from rfl] at hh
        exact absurd hh.1 (by norm_num))
      rfl
      (by rw [show pendingOneState.currentSpeaker = some 1 from rfl]; simp)
      (by
        rw [show pendingOneState.currentSpeaker = some 1 from rfl]
        exact stickinessBlocks_of_not_lt
          (by rw [show getSmoothedLevel twoSpeakerLevels 100 1 = -1000 from rfl]; norm_num))
      (by rw [show pendingOneState.pendingSpeaker = some 1 from rfl]; simp)
  · apply hold_confirmation_and_reset.2 true twoSpeakerLevels pendingRunState 1000
    rw [tick_eq_of_switch twoSpeakerLevels pendingRunState 1000 2 (-800)
      (by
        intro hh
        rw [show pendingRunState.lastSwitchAt = 0 from rfl] at hh
        exact absurd hh.1 (by norm_num))
      rfl
      (by rw [show pendingRunState.currentSpeaker = some 1 from rfl]; simp)
      (by
        rw [show pendingRunState.currentSpeaker = some 1 from rfl]
        exact stickinessBlocks_of_not_lt
          (by rw [show getSmoothedLevel twoSpeakerLevels 1000 1 = -1000 from rfl]; norm_num))
      rfl
      (by
        rw [show pendingRunState.holdMs = 1000 from rfl,
          show pendingRunState.pendingSince = 0 from rfl]
        norm_num)]
    show switchCommands pendingRunState 2 ≠ []
    exact switchCommands_ne_nil _ _

/-- C3 witness: a tick inside the cooldown is inert, a confirming tick
stamps its own time, and a two-tick run keeps switch times separated. -/
theorem cooldown_separation_witness :
    autoSwitchTick true twoSpeakerLevels coolingRunState 600 = (coolingRunState, []) ∧
    (autoSwitchTick true twoSpeakerLevels pendingRunState 1000).1.lastSwitchAt = 1000 ∧
    (runTicks baseRunState
        [(true, twoSpeakerLevels, 5), (true, twoSpeakerLevels, 10)]).2.Pairwise
      (fun a b => baseRunState.cooldownMs ≤ b - a) := by
  refine ⟨?_, ?_, ?_⟩
  · exact cooldown_separation.1 twoSpeakerLevels coolingRunState 600
      (by rw [show coolingRunState.lastSwitchAt = 500 from rfl]; norm_num)
      (by
        rw [show coolingRunState.lastSwitchAt = 500 from rfl,
          show coolingRunState.cooldownMs = 2000 from rfl]
        norm_num)
  · apply cooldown_separation.2.1 true twoSpeakerLevels pendingRunState 1000
    rw [tick_eq_of_switch twoSpeakerLevels pendingRunState 1000 2 (-800)
      (by
        intro hh
        rw [show pendingRunState.lastSwitchAt = 0 from rfl] at hh
        exact absurd hh.1 (by norm_num))
      rfl
      (by rw [show pendingRunState.currentSpeaker = some 1 from rfl]; simp)
      (by
        rw [show pendingRunState.currentSpeaker = some 1 from rfl]
        exact stickinessBlocks_of_not_lt
          (by rw [show getSmoothedLevel twoSpeakerLevels 1000 1 = -1000 from rfl]; norm_num))
      rfl
      (by
        rw [show pendingRunState.holdMs = 1000 from rfl,
          show pendingRunState.pendingSince = 0 from rfl]
        norm_num)]
    show switchCommands pendingRunState 2 ≠ []
    exact switchCommands_ne_nil _ _
  · exact cooldown_separation.2.2 baseRunState
      [(true, twoSpeakerLevels, 5), (true, twoSpeakerLevels, 10)]
      (by rw [show baseRunState.cooldownMs = 2000 from rfl]; norm_num)
      (by
        intro q hq
        rcases List.mem_cons.mp hq with h | h
        · rw [h]; norm_num
        · rw [List.mem_singleton.mp h]; norm_num)

/-- C4 witness: two samples on channel 3 (with an interleaved sample on
channel 4) yield the two-step EMA of channel 3's samples. -/
theorem smoothed_level_ema_witness :
    Option.map InputAudioLevel.smoothedLevel
      (lookupLevel (deliverSamples [] [(3, -2000, 17), (4, -100, 18), (3, -1000, 99)]) 3) =
      emaIter [-2000, -1000] :=
  smoothed_level_ema [(3, -2000, 17), (4, -100, 18), (3, -1000, 99)] [] 3 rfl

/-- C5 witness: a record last updated at time 0 read at time 10000 is
stale, so both getters return -10000 and the channel is not ranked. -/
theorem stale_reads_silent_witness :
    getInstantaneousPeak staleLevels 10000 4 = -10000 ∧
    getSmoothedLevel staleLevels 10000 4 = -10000 ∧
    ∀ q, (4, q) ∉ getActiveInputsByAudioLevel staleLevels 10000 none false :=
  stale_reads_silent staleLevels 10000 4 none false
    (by rw [show staleLevels.map Prod.fst = [4] from rfl]; simp)
    (Or.inr ⟨{ samples := [-100], smoothedLevel := -100, recentPeak := -100, lastUpdate := 0 },
      rfl, by norm_num [LEVEL_WINDOW_MS]⟩)

/-- C6 witness: a single record below the silence threshold produces an
empty ranking. -/
theorem rank_order_spec_witness :
    getActiveInputsByAudioLevel quietLevels 0 none false = [] := by
  apply (rank_order_spec quietLevels 0 none false).2.2.2.2 rfl
  intro e he
  rw [show quietLevels =
    [(3, { samples := [-6000], smoothedLevel := -6000, recentPeak := -6000,
           lastUpdate := 0 })] from rfl] at he
  rw [List.mem_singleton.mp he]
  norm_num [SILENCE_THRESHOLD]

/-- C7 witness: starting while a run is active errors and leaves the
engine - including the active run - untouched. -/
theorem start_guard_errors_witness :
    (startAutoSwitch busyEngine emptyOptions 0).1 = busyEngine ∧
    (startAutoSwitch busyEngine emptyOptions 0).2 ≠ StartAutoSwitchResult.started :=
  start_guard_errors busyEngine emptyOptions 0 (Or.inl rfl)

/-- C8 witness: a confirmed guest switch in `host_ssrc` mode, and a default
`host_ssrc` start whose candidate set 1-8 contains the default host 7. -/
theorem host_hybrid_executor_witness :
    (∃ l, (autoSwitchTick true twoSpeakerLevels hostRunState 1000).1.currentSpeaker = some l ∧
      (l = hostRunState.hostInput →
        (autoSwitchTick true twoSpeakerLevels hostRunState 1000).2 =
          [AtemCommand.changeProgramInput l hostRunState.me]) ∧
      (l ≠ hostRunState.hostInput →
        (autoSwitchTick true twoSpeakerLevels hostRunState 1000).2 =
          [AtemCommand.setSuperSourceBoxSource l hostRunState.ssrcBox hostRunState.ssrcId,
           AtemCommand.changeProgramInput 6000 hostRunState.me])) ∧
    ∃ st, (startAutoSwitch readyEngine hostOptions 0).1.autoSwitch = some st ∧
      st.candidates = [1, 2, 3, 4, 5, 6, 7, 8] ∧
      st.hostInput = hostOptions.hostInput.getD 7 ∧
      (st.hostInput ∈ ([1, 2, 3, 4, 5, 6, 7, 8] : List ℕ) →
        st.hostInput ∈ st.candidates) := by
  constructor
  · apply host_hybrid_executor.1 true twoSpeakerLevels hostRunState 1000 rfl
    rw [tick_eq_of_switch twoSpeakerLevels hostRunState 1000 2 (-800)
      (by
        intro hh
        rw [show hostRunState.lastSwitchAt = 0 from rfl] at hh
        exact absurd hh.1 (by norm_num))
      rfl
      (by rw [show hostRunState.currentSpeaker = some 1 from rfl]; simp)
      (by
        rw [show hostRunState.currentSpeaker = some 1 from rfl]
        exact stickinessBlocks_of_not_lt
          (by rw [show getSmoothedLevel twoSpeakerLevels 1000 1 = -1000 from rfl]; norm_num))
      rfl
      (by
        rw [show hostRunState.holdMs = 1000 from rfl,
          show hostRunState.pendingSince = 0 from rfl]
        norm_num)]
    show switchCommands hostRunState 2 ≠ []
    exact switchCommands_ne_nil _ _
  · exact host_hybrid_executor.2 readyEngine hostOptions 0
      (startAutoSwitch readyEngine hostOptions 0).1 rfl rfl rfl

/-- C10 witness: a confirming tick changes the speaker and counts one
switch; a pending-replacement tick changes neither; a tick whose loudest is
the confirmed speaker only clears the pending state. -/
theorem switch_changes_speaker_witness :
    ((autoSwitchTick true twoSpeakerLevels pendingRunState 1000).1.currentSpeaker ≠
        pendingRunState.currentSpeaker ∧
      (autoSwitchTick true twoSpeakerLevels pendingRunState 1000).1.switchCount =
        pendingRunState.switchCount + 1) ∧
    ((autoSwitchTick true twoSpeakerLevels pendingOneState 100).1.currentSpeaker =
        pendingOneState.currentSpeaker ∧
      (autoSwitchTick true twoSpeakerLevels pendingOneState 100).1.switchCount =
        pendingOneState.switchCount) ∧
    autoSwitchTick true twoSpeakerLevels sameSpeakerState 50 =
      ({ sameSpeakerState with pendingSpeaker := none }, []) := by
  refine ⟨?_, ?_, ?_⟩
  · apply switch_changes_speaker.1 true twoSpeakerLevels pendingRunState 1000
    rw [tick_eq_of_switch twoSpeakerLevels pendingRunState 1000 2 (-800)
      (by
        intro hh
        rw [show pendingRunState.lastSwitchAt = 0 from rfl] at hh
        exact absurd hh.1 (by norm_num))
      rfl
      (by rw [show pendingRunState.currentSpeaker = some 1 from rfl]; simp)
      (by
        rw [show pendingRunState.currentSpeaker = some 1 from rfl]
        exact stickinessBlocks_of_not_lt
          (by rw [show getSmoothedLevel twoSpeakerLevels 1000 1 = -1000 from rfl]; norm_num))
      rfl
      (by
        rw [show pendingRunState.holdMs = 1000 from rfl,
          show pendingRunState.pendingSince = 0 from rfl]
        norm_num)]
    show switchCommands pendingRunState 2 ≠ []
    exact switchCommands_ne_nil _ _
  · apply switch_changes_speaker.2.1 true twoSpeakerLevels pendingOneState 100
    rw [tick_eq_of_new_pending twoSpeakerLevels pendingOneState 100 2 (-800)
      (by
        intro hh
        rw [show pendingOneState.lastSwitchAt = 0 from rfl] at hh
        exact absurd hh.1 (by norm_num))
      rfl
      (by rw [show pendingOneState.currentSpeaker = some 1 from rfl]; simp)
      (by
        rw [show pendingOneState.currentSpeaker = some 1 from rfl]
        exact stickinessBlocks_of_not_lt
          (by rw [show getSmoothedLevel twoSpeakerLevels 100 1 = -1000 from rfl]; norm_num))
      (by rw [show pendingOneState.pendingSpeaker = some 1 from rfl]; simp)]
  · exact switch_changes_speaker.2.2 twoSpeakerLevels sameSpeakerState 50 2 (-800)
      (by
        intro hh
        rw [show sameSpeakerState.lastSwitchAt = 0 from rfl] at hh
        exact absurd hh.1 (by norm_num))
      rfl rfl

end AtemAutoSwitch
